import Mathlib

/-!
# Verification of the finlitte-CRM contract lifecycle and audit subsystem

Shallow embedding of the core logic of the finlitte-CRM repository:

* the expiry-status classifier `getStatus` (src/components/Dashboard.tsx,
  src/unnamed/part_003);
* the dashboard view predicates (active / ended / archived tabs,
  src/components/Dashboard.tsx);
* the Express handlers for contract create/update, archive toggle, delete,
  history read (src/unnamed/part_009);
* the n8n webhook bulk-import reconciler (src/unnamed/part_009).

JavaScript `Date` values are modelled as integer milliseconds since the Unix
epoch; the ambient clock reads (`new Date()`) inside the handlers are lifted
to explicit parameters, which is the standard way to embed an effectful read.
JavaScript numbers are modelled as integers (no claim under verification
depends on fractional values).
-/

namespace Finlitte

/-! ## Status classifier (`getStatus`)

Source (identical in src/components/Dashboard.tsx, lines 226-239, and
src/unnamed/part_003, lines 207-221):

```
const getStatus = (dateStr: string): ExpiryStatus => {
  const today = new Date();
  today.setHours(0, 0, 0, 0);
  const expiry = new Date(dateStr);
  expiry.setHours(0, 0, 0, 0);
  const diffTime = expiry.getTime() - today.getTime();
  const diffDays = Math.ceil(diffTime / (1000 * 60 * 60 * 24));
  if (diffDays < 0) return ExpiryStatus.EXPIRED;
  if (diffDays <= 30) return ExpiryStatus.WARNING;
  return ExpiryStatus.VALID;
};
```
-/

inductive ExpiryStatus where
  | VALID
  | WARNING
  | EXPIRED
  deriving DecidableEq, Repr

/-- Milliseconds in a day, `1000 * 60 * 60 * 24` in the source. -/
def ONE_DAY : Int := 1000 * 60 * 60 * 24

/-- Source `d.setHours(0, 0, 0, 0)`: truncate a millisecond timestamp to midnight.
Timezone offsets are taken as zero (UTC); the truncation floors also for
pre-epoch (negative) timestamps, which `Int` division by the positive
`ONE_DAY` (Euclidean, hence flooring) matches. -/
def setMidnight (t : Int) : Int := ONE_DAY * (t / ONE_DAY)

/-- Source `Math.ceil (a / b)` for integer `a` and positive integer `b`. -/
def jsCeilDiv (a b : Int) : Int := -((-a) / b)

/-- The classifier, with the internal `new Date()` read lifted to the
explicit argument `clock` (the millisecond timestamp the ambient clock
returns at the call). -/
def getStatus (dateMs clock : Int) : ExpiryStatus :=
  let today := setMidnight clock
  let expiry := setMidnight dateMs
  let diffTime := expiry - today
  let diffDays := jsCeilDiv diffTime ONE_DAY
  if diffDays < 0 then .EXPIRED
  else if diffDays ≤ 30 then .WARNING
  else .VALID

/-! ## Dashboard view predicates

Source (src/components/Dashboard.tsx, lines 296-309):

```
if (activeTab === 'active') {
  viewMatches = !c.is_archived && status !== ExpiryStatus.EXPIRED;
} else if (activeTab === 'ended') {
  viewMatches = !c.is_archived && status === ExpiryStatus.EXPIRED;
} else if (activeTab === 'archived') {
  viewMatches = !!c.is_archived;
}
```

`archived` is the contract's `is_archived` flag (stored as an INTEGER 0/1
column, truthy iff nonzero) and `status = getStatus(c.galiojaIki)`;
`expiryMs` below stands for `new Date(c.galiojaIki).getTime()`. -/

def inActiveView (archived : Int) (expiryMs clock : Int) : Bool :=
  decide (archived = 0) && decide (getStatus expiryMs clock ≠ .EXPIRED)

def inEndedView (archived : Int) (expiryMs clock : Int) : Bool :=
  decide (archived = 0) && decide (getStatus expiryMs clock = .EXPIRED)

def inArchivedView (archived : Int) : Bool :=
  decide (archived ≠ 0)

/-! ## JavaScript values

The request payloads and spreadsheet cells the handlers receive are untyped
JSON/JS values.  The fragment the handlers actually use is strings, numbers
and `undefined` (absent keys); numbers are modelled as integers. -/

inductive JsVal where
  | str (s : String)
  | num (n : Int)
  | undefined
  deriving DecidableEq, Repr

namespace JsVal

/-- JS truthiness on the modelled fragment: `undefined`, `""` and `0` are
falsy. -/
def truthy : JsVal → Bool
  | .str s => !(s = "")
  | .num n => !(n = 0)
  | .undefined => false

/-- Coercion `String(v)` (also the template-literal rendering used in diff lines). -/
def jsString : JsVal → String
  | .str s => s
  | .num n => toString n
  | .undefined => "undefined"

/-- Disjunction `a || b`. -/
def jsOr (a b : JsVal) : JsVal := if a.truthy then a else b

end JsVal

/-! ## Persisted state

Schema from src/server/database.js: the `contracts` table has TEXT columns
for the seven textual fields, REAL columns `metineIsmoka`/`ismoka`, a TEXT
`notes` column holding `JSON.stringify` of the notes array (modelled as the
list itself — `JSON.stringify` is injective on lists of strings and reads
`JSON.parse` back), and an INTEGER `is_archived`.  SQLite applies column
affinity on insert and when comparing a bound parameter to a column. -/

/-- SQLite TEXT affinity: a numeric value is stored/compared as its text. -/
def textAff : JsVal → JsVal
  | .num n => .str (toString n)
  | v => v

/-- SQLite REAL/NUMERIC affinity: numeric-looking text is stored as the
number. -/
def realAff : JsVal → JsVal
  | .str s => match s.toInt? with
    | some n => .num n
    | none => .str s
  | v => v

structure Row where
  id : Nat
  draudejas : JsVal
  pardavejas : JsVal
  ldGrupe : JsVal
  policyNo : JsVal
  galiojaNuo : JsVal
  galiojaIki : JsVal
  valstybinisNr : JsVal
  metineIsmoka : JsVal
  ismoka : JsVal
  notes : List String
  atnaujinimoData : String
  is_archived : Int
  deriving DecidableEq, Repr

/-- A `POST /api/contracts` request body (`req.body`).  `id?` is `c.id`
(present for the update branch, absent for create). -/
structure Payload where
  id? : Option Nat
  draudejas : JsVal
  pardavejas : JsVal
  ldGrupe : JsVal
  policyNo : JsVal
  galiojaNuo : JsVal
  galiojaIki : JsVal
  valstybinisNr : JsVal
  metineIsmoka : JsVal
  ismoka : JsVal
  notes : List String
  deriving DecidableEq, Repr

/-- A row of the `history` table (the autoincrement id is the position in
the state's history list). -/
structure HistoryEntry where
  contract_id : Nat
  user_id : Nat
  username : String
  timestamp : String
  action : String
  details : String
  deriving DecidableEq, Repr

/-- Database state: the `contracts` rows in insertion order, the `history`
rows in insertion order, and the next AUTOINCREMENT contract id. -/
structure DB where
  contracts : List Row
  history : List HistoryEntry
  nextId : Nat
  deriving DecidableEq, Repr

/-- The authenticated session data a handler reads. -/
structure Session where
  userId : Nat
  username : String
  deriving DecidableEq, Repr

/-- HTTP outcome of a handler. -/
inductive ApiResult where
  | ok (message : String) (id : Nat)
  | badRequest (error : String)
  | conflict (error : String)
  | notFound (error : String)
  deriving DecidableEq, Repr

/-- The history row `logHistory` inserts. -/
def histEntry (contractId : Nat) (u : Session) (now action details : String) :
    HistoryEntry :=
  { contract_id := contractId, user_id := u.userId, username := u.username,
    timestamp := now, action := action, details := details }

/-- Statement `INSERT INTO history ... VALUES (?, ?, ?, ?, ?, ?)` (`logHistory`,
src/unnamed/part_009 lines 81-86); `now` is the `new Date().toISOString()`
read. -/
def logHistory (db : DB) (contractId : Nat) (u : Session) (now : String)
    (action details : String) : DB :=
  { db with history := db.history ++ [histEntry contractId u now action details] }

/-- Query `SELECT ... FROM contracts WHERE id = ?`. -/
def findById (db : DB) (i : Nat) : Option Row :=
  db.contracts.find? fun r => r.id = i

/-- Query `SELECT id FROM contracts WHERE policyNo = ? AND valstybinisNr = ?`.
The bound parameters are compared under the TEXT affinity of the columns. -/
def findByBusinessKey (db : DB) (policyNo valstybinisNr : JsVal) : Option Row :=
  db.contracts.find? fun r =>
    r.policyNo = textAff policyNo && r.valstybinisNr = textAff valstybinisNr

/-! ## `POST /api/contracts` (src/unnamed/part_009, lines 177-267) -/

/-- One entry of `fieldsToCheck`: push
`"<label>: <old> -> <new>"` when `String(old) !== String(new)`. -/
def fieldDiffLine (label : String) (oldV newV : JsVal) : List String :=
  if oldV.jsString ≠ newV.jsString then
    [label ++ ": " ++ oldV.jsString ++ " -> " ++ newV.jsString]
  else []

/-- The coarse notes comparison (lines 212-218): one line when the stored
JSON differs from the incoming `notesStr`. -/
def notesDiffLine (oldNotes newNotes : List String) : List String :=
  if oldNotes ≠ newNotes then
    if newNotes.length > oldNotes.length then
      ["Added note: \"" ++ (newNotes.getLast?.getD "undefined") ++ "\""]
    else if newNotes.length < oldNotes.length then ["Removed note"]
    else ["Notes updated"]
  else []

/-- The `changes` array built by the update branch (lines 193-218). -/
def diffChanges (old : Row) (c : Payload) : List String :=
  fieldDiffLine "Client" old.draudejas c.draudejas ++
  fieldDiffLine "Salesperson" old.pardavejas c.pardavejas ++
  fieldDiffLine "Type" old.ldGrupe c.ldGrupe ++
  fieldDiffLine "Policy No" old.policyNo c.policyNo ++
  fieldDiffLine "Valid From" old.galiojaNuo c.galiojaNuo ++
  fieldDiffLine "Valid Until" old.galiojaIki c.galiojaIki ++
  fieldDiffLine "Reg No" old.valstybinisNr c.valstybinisNr ++
  fieldDiffLine "Yearly Price" old.metineIsmoka c.metineIsmoka ++
  fieldDiffLine "Payout" old.ismoka c.ismoka ++
  notesDiffLine old.notes c.notes

/-- Effect of the `UPDATE contracts SET ...` statement (lines 220-231) on a
matched row: the nine business fields, notes and `atnaujinimoData` are
overwritten (under column affinity); `id` and `is_archived` are untouched. -/
def updatedRow (old : Row) (c : Payload) (now : String) : Row :=
  { old with
    draudejas := textAff c.draudejas
    pardavejas := textAff c.pardavejas
    ldGrupe := textAff c.ldGrupe
    policyNo := textAff c.policyNo
    galiojaNuo := textAff c.galiojaNuo
    galiojaIki := textAff c.galiojaIki
    valstybinisNr := textAff c.valstybinisNr
    metineIsmoka := realAff c.metineIsmoka
    ismoka := realAff c.ismoka
    notes := c.notes
    atnaujinimoData := now }

/-- Row built by the `INSERT INTO contracts ...` of the create branch
(lines 248-258): fresh id, `is_archived = 0`, payload fields under column
affinity. -/
def insertedRow (c : Payload) (now : String) (newId : Nat) : Row :=
  { id := newId
    draudejas := textAff c.draudejas
    pardavejas := textAff c.pardavejas
    ldGrupe := textAff c.ldGrupe
    policyNo := textAff c.policyNo
    galiojaNuo := textAff c.galiojaNuo
    galiojaIki := textAff c.galiojaIki
    valstybinisNr := textAff c.valstybinisNr
    metineIsmoka := realAff c.metineIsmoka
    ismoka := realAff c.ismoka
    notes := c.notes
    atnaujinimoData := now
    is_archived := 0 }

/-- Check `!c.draudejas || !c.policyNo || !c.galiojaIki` (line 182). -/
def requiredPresent (c : Payload) : Bool :=
  c.draudejas.truthy && c.policyNo.truthy && c.galiojaIki.truthy

/-- The `POST /api/contracts` handler (create when `c.id` is absent,
update when present).  `now` is the `new Date().toISOString()` value read
during the request. -/
def postContracts (u : Session) (now : String) (c : Payload) (db : DB) :
    ApiResult × DB :=
  if !requiredPresent c then (.badRequest "Missing required fields", db)
  else
    match c.id? with
    | some i =>
      match findById db i with
      | none => (.notFound "Contract not found", db)
      | some old =>
        let changes := diffChanges old c
        let rows := db.contracts.map
          (fun r => if r.id = i then updatedRow r c now else r)
        let db1 := { db with contracts := rows }
        let db2 := if changes.length > 0 then
            logHistory db1 i u now "UPDATED" (String.intercalate "; " changes)
          else db1
        (.ok "Updated" i, db2)
    | none =>
      match findByBusinessKey db c.policyNo c.valstybinisNr with
      | some _ =>
        (.conflict "Sutartis su tokiu poliso numeriu ir objektu jau egzistuoja.", db)
      | none =>
        let newId := db.nextId
        let db1 := { db with
          contracts := db.contracts ++ [insertedRow c now newId]
          nextId := newId + 1 }
        (.ok "Created" newId, logHistory db1 newId u now "CREATED" "Contract created")

/-! ## `POST /api/contracts/:id/archive` (lines 271-292) -/

/-- Expression `row.is_archived === 1 ? 0 : 1` (line 280). -/
def toggleFlag (v : Int) : Int := if v = 1 then 0 else 1

/-- Expression `newStatus === 1 ? 'ARCHIVED' : 'RESTORED'` (line 281): the audited
action name is derived from the new flag value. -/
def archiveAction (newStatus : Int) : String :=
  if newStatus = 1 then "ARCHIVED" else "RESTORED"

def toggleArchive (u : Session) (now : String) (i : Nat) (db : DB) :
    ApiResult × DB :=
  match findById db i with
  | none => (.notFound "Contract not found", db)
  | some row =>
    let newStatus : Int := toggleFlag row.is_archived
    let action := archiveAction newStatus
    let rows := db.contracts.map (fun r =>
      if r.id = i then { r with is_archived := newStatus, atnaujinimoData := now }
      else r)
    let db1 := { db with contracts := rows }
    (.ok action i, logHistory db1 i u now action ("Contract " ++ action.toLower))

/-! ## `DELETE /api/contracts/:id` (lines 295-305)

`db.run('DELETE FROM contracts WHERE id = ?', ...)` runs unconditionally —
there is no prior existence check — and the callback always logs the
DELETED entry and answers `{ message: 'Deleted' }`. -/

def deleteContract (u : Session) (now : String) (i : Nat) (db : DB) :
    ApiResult × DB :=
  let db1 := { db with contracts := db.contracts.filter fun r => !(r.id = i) }
  (.ok "Deleted" i, logHistory db1 i u now "DELETED" "Contract permanently deleted")

/-! ## List and history queries (lines 139-174)

ISO-8601 dates and timestamps in TEXT columns sort lexicographically, which
is how SQLite's BINARY collation orders them; `String` order in Lean is the
same lexicographic order on the modelled values. -/

/-- Query `SELECT * FROM contracts WHERE is_archived = 0 ORDER BY galiojaIki ASC`. -/
def listActive (db : DB) : List Row :=
  (db.contracts.filter fun r => r.is_archived = 0).mergeSort
    fun a b => a.galiojaIki.jsString ≤ b.galiojaIki.jsString

/-- Query `SELECT * FROM contracts WHERE is_archived = 1 ORDER BY atnaujinimoData DESC`. -/
def listArchived (db : DB) : List Row :=
  (db.contracts.filter fun r => r.is_archived = 1).mergeSort
    fun a b => b.atnaujinimoData ≤ a.atnaujinimoData

/-- Query `SELECT * FROM history WHERE contract_id = ? ORDER BY timestamp DESC`.
History rows are appended with the timestamps the operations read, which are
strictly increasing along each trace, so the descending-timestamp order is
the reverse of insertion order. -/
def historyDesc (db : DB) (i : Nat) : List HistoryEntry :=
  (db.history.filter fun e => e.contract_id = i).reverse

/-! ## `POST /api/webhook/n8n` — bulk import (src/unnamed/part_009, lines 535-682) -/

/-- A spreadsheet row as delivered by n8n: a JS object, modelled as an
association list of (column name, cell value). -/
abbrev Item := List (String × JsVal)

/-- Helper `getValue(obj, key)` (lines 570-573): case-insensitive key lookup,
`undefined` when absent. -/
def getValue (item : Item) (key : String) : JsVal :=
  match item.find? (fun kv => kv.1.toLower = key.toLower) with
  | some kv => kv.2
  | none => .undefined

/-- The Gregorian date for a count of days since 1970-01-01 (what
`new Date(ms).toISOString()` renders); standard era-based conversion. -/
def civilFromDays (z0 : Int) : Int × Int × Int :=
  let z := z0 + 719468
  let era := z / 146097
  let doe := z - era * 146097
  let yoe := (doe - doe / 1460 + doe / 36524 - doe / 146096) / 365
  let y := yoe + era * 400
  let doy := doe - (365 * yoe + yoe / 4 - yoe / 100)
  let mp := (5 * doy + 2) / 153
  let d := doy - (153 * mp + 2) / 5 + 1
  let m := mp + (if mp < 10 then 3 else -9)
  (y + (if m ≤ 2 then 1 else 0), m, d)

def pad2 (n : Int) : String :=
  if n < 10 then "0" ++ toString n else toString n

/-- The `YYYY-MM-DD` rendering of a day count since the epoch. -/
def isoOfDays (z : Int) : String :=
  let c := civilFromDays z
  toString c.1 ++ "-" ++ pad2 c.2.1 ++ "-" ++ pad2 c.2.2

/-- Coercion `Number(v)`: numbers pass through; numeric text parses (blank text is 0);
anything else is NaN, modelled as `none`.  JS numbers are modelled as
integers. -/
def jsNumber : JsVal → Option Int
  | .num n => some n
  | .str s => if s.trim = "" then some 0 else s.trim.toInt?
  | .undefined => none

/-- Parse `new Date(input)` for the fall-through branch of `parseDate`, modelled
for the inputs the system produces: a number is epoch milliseconds, an ISO
`YYYY-MM-DD` string parses to itself; other strings are unparseable and fall
back to today. -/
def looksIsoDate (s : String) : Bool :=
  match s.splitOn "-" with
  | [y, m, d] =>
    y.length = 4 && m.length = 2 && d.length = 2 &&
    (y.toList.all Char.isDigit) && (m.toList.all Char.isDigit) &&
    (d.toList.all Char.isDigit)
  | _ => false

def dateFromValue (v : JsVal) (todayStr : String) : String :=
  match v with
  | .num n => isoOfDays (n / 86400000)
  | .str s => if looksIsoDate s then s else todayStr
  | .undefined => todayStr

/-- Helper `parseDate` (lines 550-567): falsy → today; Excel serial over the 20000
threshold → serial conversion (epoch offset 25569); otherwise a date-string
parse with today as the fallback. -/
def parseDate (input : JsVal) (todayStr : String) : String :=
  if !input.truthy then todayStr
  else
    match jsNumber input with
    | some serial =>
      if serial > 20000 then isoOfDays (serial - 25569)
      else dateFromValue input todayStr
    | none => dateFromValue input todayStr

/-- Call `v.trim()` on the result of an `(... || '')` chain: a string trims, a
(truthy) number has no `.trim` method and the row's processing throws. -/
def jsTrim : JsVal → Except String String
  | .str s => .ok s.trim
  | v => .error (v.jsString ++ ".trim is not a function")

/-- The `contract` object the webhook builds for one row (lines 590-621). -/
structure ImportRec where
  draudejas : JsVal
  pardavejas : JsVal
  ldGrupe : String
  policyNo : String
  galiojaNuo : String
  galiojaIki : String
  valstybinisNr : String
  metineIsmoka : Int
  ismoka : Int
  atnaujinimoData : String
  deriving DecidableEq, Repr

/-- Field mapping for one row (lines 577-622): `none` when the row has no
resolvable policy number (the `continue`, line 585-588), `Except.error` when
the mapping throws, `Except.ok` with the mapped record otherwise. -/
def mapItem (item : Item) (todayStr : String) : Option (Except String ImportRec) :=
  let g := getValue item
  let policyNoV := JsVal.jsOr (g "Poliso Nr.") (JsVal.jsOr (g "Poliso Nr")
    (JsVal.jsOr (g "POLISO_NR") (g "policyNo")))
  if !policyNoV.truthy then none
  else some (do
    let ldGrupe ← jsTrim (JsVal.jsOr (g "Draudimo rūšis")
      (JsVal.jsOr (g "Draudimo produktas") (JsVal.jsOr (g "DRAUDIMO_PRODUKTAS")
        (JsVal.jsOr (g "ldGrupe") (.str "")))))
    let valstybinisNr ← jsTrim (JsVal.jsOr (g "Valstybinis Nr.")
      (JsVal.jsOr (g "Valstybinis Nr") (JsVal.jsOr (g "VALSTYBINIS_NR")
        (JsVal.jsOr (g "valstybinisNr") (.str "")))))
    .ok
      { draudejas := JsVal.jsOr (g "Draudėjo pavadinimas")
          (JsVal.jsOr (g "KLIENTAS") (JsVal.jsOr (g "draudejas") (.str "Unknown")))
        pardavejas := JsVal.jsOr (g "Kuratorius")
          (JsVal.jsOr (g "BROKERIS") (JsVal.jsOr (g "pardavejas") (.str "")))
        ldGrupe := ldGrupe
        policyNo := policyNoV.jsString.trim
        galiojaNuo := parseDate (JsVal.jsOr (g "Galioja nuo")
          (JsVal.jsOr (g "POLISO_PRADZIA") (g "galiojaNuo"))) todayStr
        galiojaIki := parseDate (JsVal.jsOr (g "Galioja iki")
          (JsVal.jsOr (g "POLISO_PABAIGA") (g "galiojaIki"))) todayStr
        valstybinisNr := valstybinisNr
        metineIsmoka := (jsNumber (JsVal.jsOr (g "Metinė įmoka")
          (JsVal.jsOr (g "Pasirašyta įmoka") (JsVal.jsOr (g "METINE_IMOKA")
            (g "metineIsmoka"))))).getD 0
        ismoka := (jsNumber (JsVal.jsOr (g "Draudimo suma")
          (JsVal.jsOr (g "ISMOKA") (g "ismoka")))).getD 0
        atnaujinimoData := parseDate (JsVal.jsOr (g "Atnaujini-mo data")
          (JsVal.jsOr (g "Atnaujinimo data") (g "ATNAUJINIMO_DATA"))) todayStr })

/-- Effect of the per-row `UPDATE` (lines 637-653) on the matched row: the
mutable fields are overwritten; `id`, `policyNo`, `notes` and `is_archived`
are untouched. -/
def importUpdatedRow (c : ImportRec) (r : Row) : Row :=
  { r with
    draudejas := textAff c.draudejas
    pardavejas := textAff c.pardavejas
    ldGrupe := .str c.ldGrupe
    galiojaNuo := .str c.galiojaNuo
    galiojaIki := .str c.galiojaIki
    valstybinisNr := .str c.valstybinisNr
    metineIsmoka := .num c.metineIsmoka
    ismoka := .num c.ismoka
    atnaujinimoData := c.atnaujinimoData }

/-- Row built by the per-row `INSERT` (lines 655-671): notes `'[]'`,
`is_archived = 0`. -/
def importInsertedRow (c : ImportRec) (newId : Nat) : Row :=
  { id := newId
    draudejas := textAff c.draudejas
    pardavejas := textAff c.pardavejas
    ldGrupe := .str c.ldGrupe
    policyNo := .str c.policyNo
    galiojaNuo := .str c.galiojaNuo
    galiojaIki := .str c.galiojaIki
    valstybinisNr := .str c.valstybinisNr
    metineIsmoka := .num c.metineIsmoka
    ismoka := .num c.ismoka
    notes := []
    atnaujinimoData := c.atnaujinimoData
    is_archived := 0 }

/-- Reconciliation of one mapped row (lines 624-672): update the contract
matched by the (policyNo, valstybinisNr) business key, or insert a fresh
one. -/
def upsertImport (c : ImportRec) (db : DB) : DB :=
  match findByBusinessKey db (.str c.policyNo) (.str c.valstybinisNr) with
  | some existing =>
    let rows := db.contracts.map
      (fun r => if r.id = existing.id then importUpdatedRow c r else r)
    { db with contracts := rows }
  | none =>
    { db with
      contracts := db.contracts ++ [importInsertedRow c db.nextId]
      nextId := db.nextId + 1 }

/-- The webhook's aggregate `results` object. -/
structure ImportResults where
  success : Nat
  failed : Nat
  errors : List String
  deriving DecidableEq, Repr

/-- The `for (const item of contracts)` loop: rows processed sequentially,
a skipped row touches nothing, a thrown row is counted failed and the loop
continues, a mapped row is upserted and counted successful. -/
def importBatch (db : DB) (items : List Item) (todayStr : String) :
    ImportResults × DB :=
  match items with
  | [] => ({ success := 0, failed := 0, errors := [] }, db)
  | item :: rest =>
    match mapItem item todayStr with
    | none => importBatch db rest todayStr
    | some (.error msg) =>
      let r := importBatch db rest todayStr
      ({ r.1 with failed := r.1.failed + 1, errors := msg :: r.1.errors }, r.2)
    | some (.ok c) =>
      let r := importBatch (upsertImport c db) rest todayStr
      ({ r.1 with success := r.1.success + 1 }, r.2)

/-! ## The mutating operations, as one type (for trace-level statements) -/

inductive Op where
  | post (c : Payload)
  | archive (i : Nat)
  | del (i : Nat)
  | webhook (items : List Item) (todayStr : String)

/-- State effect of one API call. -/
def applyOp (u : Session) (now : String) : Op → DB → DB
  | .post c, db => (postContracts u now c db).2
  | .archive i, db => (toggleArchive u now i db).2
  | .del i, db => (deleteContract u now i db).2
  | .webhook items t, db => (importBatch db items t).2

/-! ## Derived predicates used by the statements -/

/-- Predicate for a payload identical to the current state of the contract: the nine compared
business fields equal under `String(...)` comparison and the notes list
unchanged (spec §4.2/§8.3). -/
def payloadMatches (old : Row) (c : Payload) : Prop :=
  old.draudejas.jsString = c.draudejas.jsString ∧
  old.pardavejas.jsString = c.pardavejas.jsString ∧
  old.ldGrupe.jsString = c.ldGrupe.jsString ∧
  old.policyNo.jsString = c.policyNo.jsString ∧
  old.galiojaNuo.jsString = c.galiojaNuo.jsString ∧
  old.galiojaIki.jsString = c.galiojaIki.jsString ∧
  old.valstybinisNr.jsString = c.valstybinisNr.jsString ∧
  old.metineIsmoka.jsString = c.metineIsmoka.jsString ∧
  old.ismoka.jsString = c.ismoka.jsString ∧
  old.notes = c.notes

instance (old : Row) (c : Payload) : Decidable (payloadMatches old c) := by
  unfold payloadMatches; infer_instance

/-- Number of contract rows carrying a given business key (under the TEXT
affinity the duplicate-check query compares with). -/
def keyCount (db : DB) (p v : JsVal) : Nat :=
  (db.contracts.filter fun r =>
    r.policyNo = textAff p && r.valstybinisNr = textAff v).length

/-- Number of CREATED history entries for a contract id. -/
def createdCount (db : DB) (i : Nat) : Nat :=
  (db.history.filter fun e => e.contract_id = i && e.action = "CREATED").length

/-- A contract row with business key `(p, v)` (as the webhook binds it:
both trimmed strings) exists. -/
def hasKey (db : DB) (p v : String) : Prop :=
  ∃ r ∈ db.contracts, r.policyNo = .str p ∧ r.valstybinisNr = .str v

/-- Well-formedness every reachable database state satisfies: contract ids
are pairwise distinct and below the AUTOINCREMENT counter. -/
def WFdb (db : DB) : Prop :=
  (db.contracts.map Row.id).Nodup ∧ ∀ r ∈ db.contracts, r.id < db.nextId

instance (db : DB) : Decidable (WFdb db) := by
  unfold WFdb; infer_instance

/-- The import-row classifiers: a row is `ok` when its mapping succeeds,
`err` when the mapping throws, and neither when it is skipped for lack of a
policy number. -/
def okItem (t : String) (item : Item) : Bool :=
  match mapItem item t with
  | some (.ok _) => true
  | _ => false

def errItem (t : String) (item : Item) : Bool :=
  match mapItem item t with
  | some (.error _) => true
  | _ => false

def errMsg (t : String) (item : Item) : Option String :=
  match mapItem item t with
  | some (.error m) => some m
  | _ => none

/-- The row components the import's update path never touches: id, notes,
archival flag. -/
def preservedFields (r : Row) : Nat × List String × Int :=
  (r.id, r.notes, r.is_archived)

/-! ## Concrete fixtures used by the witness statements -/

def wU : Session := { userId := 1, username := "admin" }

def wDB0 : DB := { contracts := [], history := [], nextId := 1 }

def wPay : Payload :=
  { id? := none
    draudejas := .str "Acme"
    pardavejas := .str "Ona"
    ldGrupe := .str "KASKO"
    policyNo := .str "POL-1"
    galiojaNuo := .str "2024-01-01"
    galiojaIki := .str "2025-01-01"
    valstybinisNr := .str "ABC123"
    metineIsmoka := .num 100
    ismoka := .num 5000
    notes := [] }

/-- State after one interactive create of `wPay` from the empty store. -/
def wDB1 : DB := (postContracts wU "T1" wPay wDB0).2

/-- A well-formed import row (policy number resolvable, mapping succeeds). -/
def wItem : Item :=
  [("Poliso Nr.", .str "POL-9"), ("KLIENTAS", .str "Beta"),
   ("Valstybinis Nr.", .str "XYZ987"), ("Galioja iki", .str "2025-06-01")]

/-! # Theorems -/

/-! ## Classifier arithmetic -/

theorem setMidnight_add_days (t : Int) (k : Int) :
    setMidnight (t + k * ONE_DAY) = setMidnight t + k * ONE_DAY := by
  unfold setMidnight
  rw [Int.add_mul_ediv_right t k (by decide : ONE_DAY ≠ 0)]
  ring

theorem jsCeilDiv_mul (k : Int) : jsCeilDiv (k * ONE_DAY) ONE_DAY = k := by
  unfold jsCeilDiv
  rw [show -(k * ONE_DAY) = (-k) * ONE_DAY by ring,
      Int.mul_ediv_cancel _ (by decide : ONE_DAY ≠ 0)]
  ring

/-- The classifier's result at `validUntil = clock + k` days is decided by
`k` alone: the day difference it computes is exactly `k`. -/
theorem getStatus_add_days (t k : Int) :
    getStatus (t + k * ONE_DAY) t =
      (if k < 0 then ExpiryStatus.EXPIRED
       else if k ≤ 30 then ExpiryStatus.WARNING
       else ExpiryStatus.VALID) := by
  unfold getStatus
  rw [setMidnight_add_days]
  simp only [add_sub_cancel_left, jsCeilDiv_mul]

/-- C1: boundary behaviour of the status classifier — for any clock value
`t`, a valid-until of the previous day is EXPIRED, of the same day is
WARNING, of today + 30 days is WARNING, and of today + k days for any
k ≥ 31 is VALID. -/
theorem C1_status_boundaries (t : Int) :
    getStatus (t - ONE_DAY) t = .EXPIRED ∧
    getStatus t t = .WARNING ∧
    getStatus (t + 30 * ONE_DAY) t = .WARNING ∧
    ∀ k : Int, 31 ≤ k → getStatus (t + k * ONE_DAY) t = .VALID := by
  refine ⟨?_, ?_, ?_, ?_⟩
  · rw [show t - ONE_DAY = t + (-1) * ONE_DAY by ring, getStatus_add_days]
    decide
  · have h0 := getStatus_add_days t 0
    rw [zero_mul, add_zero] at h0
    rw [h0]; decide
  · rw [getStatus_add_days]; decide
  · intro k hk
    rw [getStatus_add_days]
    rw [if_neg (by omega), if_neg (by omega)]

theorem C1_status_boundaries_witness :
    ((31 : Int) ≤ 45) ∧ getStatus ((0 : Int) + 45 * ONE_DAY) 0 = .VALID :=
  ⟨by decide, (C1_status_boundaries 0).2.2.2 45 (by decide)⟩

/-- C2: for any archived flag, any valid-until timestamp and any clock
value, a contract is in exactly one of the active, ended and archived
views. -/
theorem C2_view_partition (a v t : Int) :
    (inActiveView a v t).toNat + (inEndedView a v t).toNat +
      (inArchivedView a).toNat = 1 := by
  unfold inActiveView inEndedView inArchivedView
  by_cases ha : a = 0 <;> cases h : getStatus v t <;> simp [ha, h]

/-- C9 (counterexample): the source classifier visibly reads the ambient
clock — with its only explicit argument (`validUntil`) fixed, its result
changes with the internally-read clock value, so it is not a function of
the explicit argument alone. -/
theorem C9_clock_read_observable :
    getStatus 0 0 = .WARNING ∧ getStatus 0 ONE_DAY = .EXPIRED ∧
    getStatus 0 0 ≠ getStatus 0 ONE_DAY := by
  refine ⟨by decide, by decide, by decide⟩

/-- C9 (amended): with the clock read modelled as an explicit input,
classification is deterministic in the two dates — any two evaluations
whose valid-until values fall on the same calendar day and whose clock
readings fall on the same calendar day return the same status. -/
theorem C9_status_deterministic (v₁ v₂ t₁ t₂ : Int)
    (hv : setMidnight v₁ = setMidnight v₂)
    (ht : setMidnight t₁ = setMidnight t₂) :
    getStatus v₁ t₁ = getStatus v₂ t₂ := by
  unfold getStatus
  rw [hv, ht]

theorem C9_status_deterministic_witness :
    setMidnight 1000 = setMidnight 2000 ∧
    setMidnight (0 : Int) = setMidnight 3000 ∧
    getStatus 1000 0 = getStatus 2000 3000 :=
  ⟨by decide, by decide, C9_status_deterministic 1000 2000 0 3000 (by decide) (by decide)⟩

/-- C10: the delete handler performs no existence check — for an id with no
matching contract row it still reports success, leaves the contracts table
unchanged, and appends a DELETED history entry for that id. -/
theorem C10_delete_unchecked (u : Session) (now : String) (i : Nat) (db : DB)
    (h : findById db i = none) :
    (deleteContract u now i db).1 = .ok "Deleted" i ∧
    (deleteContract u now i db).2.contracts = db.contracts ∧
    (deleteContract u now i db).2.history =
      db.history ++ [histEntry i u now "DELETED" "Contract permanently deleted"] := by
  refine ⟨rfl, ?_, rfl⟩
  show db.contracts.filter _ = db.contracts
  rw [List.filter_eq_self]
  intro r hr
  have := List.find?_eq_none.mp h r hr
  simpa using this

theorem C10_delete_unchecked_witness :
    findById wDB0 5 = none ∧
    ((deleteContract wU "T9" 5 wDB0).1 = .ok "Deleted" 5 ∧
     (deleteContract wU "T9" 5 wDB0).2.contracts = wDB0.contracts ∧
     (deleteContract wU "T9" 5 wDB0).2.history =
       wDB0.history ++ [histEntry 5 wU "T9" "DELETED" "Contract permanently deleted"]) :=
  ⟨rfl, C10_delete_unchecked wU "T9" 5 wDB0 rfl⟩

/-! ## History is append-only -/

theorem upsertImport_history (c : ImportRec) (db : DB) :
    (upsertImport c db).history = db.history := by
  unfold upsertImport
  split <;> rfl

theorem importBatch_history (db : DB) (items : List Item) (t : String) :
    (importBatch db items t).2.history = db.history := by
  induction items generalizing db with
  | nil => rfl
  | cons item rest ih =>
    unfold importBatch
    cases h : mapItem item t with
    | none => exact ih db
    | some r =>
      cases r with
      | error m =>
        show (importBatch db rest t).2.history = db.history
        exact ih db
      | ok c =>
        show (importBatch (upsertImport c db) rest t).2.history = db.history
        rw [ih (upsertImport c db), upsertImport_history]

theorem postContracts_history (u : Session) (now : String) (c : Payload)
    (db : DB) :
    ∃ tail, (postContracts u now c db).2.history = db.history ++ tail := by
  unfold postContracts
  split
  · exact ⟨[], by simp⟩
  · split
    · split
      · exact ⟨[], by simp⟩
      · dsimp only
        split
        · exact ⟨_, rfl⟩
        · exact ⟨[], by simp⟩
    · split
      · exact ⟨[], by simp⟩
      · exact ⟨_, rfl⟩

theorem applyOp_history_append (u : Session) (now : String) (op : Op) (db : DB) :
    ∃ tail, (applyOp u now op db).history = db.history ++ tail := by
  cases op with
  | post c => exact postContracts_history u now c db
  | archive i =>
    show ∃ tail, (toggleArchive u now i db).2.history = db.history ++ tail
    unfold toggleArchive
    cases h : findById db i with
    | none => exact ⟨[], by simp⟩
    | some row => exact ⟨_, rfl⟩
  | del i => exact ⟨_, rfl⟩
  | webhook items t =>
    exact ⟨[], by simp [applyOp, importBatch_history]⟩

/-- C8: deleting a contract removes its row from both list queries, yet its
history survives — the state after the delete carries all previous history
entries plus a trailing DELETED entry, the per-contract history read returns
that DELETED entry first (descending timestamps) followed by the prior
entries, and no operation ever removes or rewrites history rows: every
operation's history is the prior history plus an appended tail. -/
theorem C8_history_survives_delete (u : Session) (now : String) (i : Nat)
    (db : DB) :
    (∀ r ∈ listActive (deleteContract u now i db).2, r.id ≠ i) ∧
    (∀ r ∈ listArchived (deleteContract u now i db).2, r.id ≠ i) ∧
    ((deleteContract u now i db).2.history =
      db.history ++ [histEntry i u now "DELETED" "Contract permanently deleted"]) ∧
    (historyDesc (deleteContract u now i db).2 i =
      histEntry i u now "DELETED" "Contract permanently deleted" ::
        historyDesc db i) ∧
    (∀ op : Op, ∀ s : DB, ∃ tail, (applyOp u now op s).history = s.history ++ tail) := by
  refine ⟨?_, ?_, rfl, ?_, fun op s => applyOp_history_append u now op s⟩
  · intro r hr
    unfold listActive at hr
    rw [List.mem_mergeSort] at hr
    have h1 : r ∈ (deleteContract u now i db).2.contracts :=
      (List.mem_filter.mp hr).1
    have h2 := (List.mem_filter.mp h1).2
    simpa using h2
  · intro r hr
    unfold listArchived at hr
    rw [List.mem_mergeSort] at hr
    have h1 : r ∈ (deleteContract u now i db).2.contracts :=
      (List.mem_filter.mp hr).1
    have h2 := (List.mem_filter.mp h1).2
    simpa using h2
  · unfold historyDesc
    show ((db.history ++ [histEntry i u now "DELETED" "Contract permanently deleted"]).filter _).reverse = _
    rw [List.filter_append]
    simp [histEntry]

/-! ## Archive toggle -/

theorem find?_update_map (l : List Row) (i : Nat) (f : Row → Row)
    (hf : ∀ r, (f r).id = r.id) :
    (l.map fun r => if r.id = i then f r else r).find? (fun r => r.id = i) =
      (l.find? fun r => r.id = i).map f := by
  induction l with
  | nil => rfl
  | cons a l ih =>
    by_cases h : a.id = i
    · rw [List.map_cons, if_pos h,
        List.find?_cons_of_pos _ (by simp [hf, h]),
        List.find?_cons_of_pos _ (by simp [h])]
      rfl
    · rw [List.map_cons, if_neg h,
        List.find?_cons_of_neg _ (by simp [h]),
        List.find?_cons_of_neg _ (by simp [h])]
      exact ih

/-- Shape of one archive toggle on an id the lookup finds. -/
theorem toggleArchive_found (u : Session) (now : String) (i : Nat) (db : DB)
    (r : Row) (hr : findById db i = some r) :
    toggleArchive u now i db =
      (.ok (archiveAction (toggleFlag r.is_archived)) i,
       { contracts := db.contracts.map fun x =>
           if x.id = i then
             { x with is_archived := toggleFlag r.is_archived,
                      atnaujinimoData := now }
           else x
         history := db.history ++
           [histEntry i u now (archiveAction (toggleFlag r.is_archived))
             ("Contract " ++ (archiveAction (toggleFlag r.is_archived)).toLower)]
         nextId := db.nextId }) := by
  unfold toggleArchive
  rw [hr]
  rfl

/-- Lookup `findById` after one toggle returns the row with the flag flipped and
the update timestamp refreshed. -/
theorem findById_toggleArchive (u : Session) (now : String) (i : Nat)
    (db : DB) (r : Row) (hr : findById db i = some r) :
    findById (toggleArchive u now i db).2 i =
      some { r with is_archived := toggleFlag r.is_archived,
                    atnaujinimoData := now } := by
  rw [toggleArchive_found u now i db r hr]
  unfold findById
  show (db.contracts.map fun x =>
      if x.id = i then
        { x with is_archived := toggleFlag r.is_archived,
                 atnaujinimoData := now }
      else x).find? (fun x => x.id = i) = _
  rw [find?_update_map db.contracts i
      (fun x => { x with is_archived := toggleFlag r.is_archived,
                         atnaujinimoData := now })
      (fun _ => rfl)]
  rw [show db.contracts.find? (fun x => x.id = i) = some r from hr]
  rfl

/-- C6: toggling archive twice on an existing contract (with a 0/1 flag, as
every reachable row has) restores the original flag; each toggle appends
exactly one history entry whose action is derived from the new flag value;
on a non-archived contract the two entries are ARCHIVED then RESTORED, in
that order. -/
theorem C6_archive_roundtrip (u : Session) (now1 now2 : String) (i : Nat)
    (db : DB) (r : Row) (hr : findById db i = some r)
    (hb : r.is_archived = 0 ∨ r.is_archived = 1) :
    ((findById (toggleArchive u now2 i (toggleArchive u now1 i db).2).2 i).map
        Row.is_archived = some r.is_archived) ∧
    ((toggleArchive u now1 i db).2.history = db.history ++
      [histEntry i u now1 (archiveAction (toggleFlag r.is_archived))
        ("Contract " ++ (archiveAction (toggleFlag r.is_archived)).toLower)]) ∧
    ((toggleArchive u now2 i (toggleArchive u now1 i db).2).2.history =
      db.history ++
      [histEntry i u now1 (archiveAction (toggleFlag r.is_archived))
        ("Contract " ++ (archiveAction (toggleFlag r.is_archived)).toLower),
       histEntry i u now2 (archiveAction (toggleFlag (toggleFlag r.is_archived)))
        ("Contract " ++
          (archiveAction (toggleFlag (toggleFlag r.is_archived))).toLower)]) ∧
    (r.is_archived = 0 →
      archiveAction (toggleFlag r.is_archived) = "ARCHIVED" ∧
      archiveAction (toggleFlag (toggleFlag r.is_archived)) = "RESTORED") := by
  have e1 := toggleArchive_found u now1 i db r hr
  have hfind1 := findById_toggleArchive u now1 i db r hr
  have hfind2 := findById_toggleArchive u now2 i (toggleArchive u now1 i db).2
    _ hfind1
  have e2 := toggleArchive_found u now2 i (toggleArchive u now1 i db).2 _ hfind1
  refine ⟨?_, by rw [e1], ?_, ?_⟩
  · rw [hfind2]
    rcases hb with h0 | h1
    · rw [show toggleFlag (toggleFlag r.is_archived) = r.is_archived by
        rw [h0]; rfl]
      rfl
    · rw [show toggleFlag (toggleFlag r.is_archived) = r.is_archived by
        rw [h1]; rfl]
      rfl
  · rw [e2, e1]
    simp [List.append_assoc]
  · intro h0
    rw [h0]
    constructor <;> rfl

theorem C6_archive_roundtrip_witness :
    findById wDB1 1 = some (insertedRow wPay "T1" 1) ∧
    ((insertedRow wPay "T1" 1).is_archived = 0 ∨
      (insertedRow wPay "T1" 1).is_archived = 1) ∧
    ((findById (toggleArchive wU "T5" 1 (toggleArchive wU "T4" 1 wDB1).2).2 1).map
        Row.is_archived = some (insertedRow wPay "T1" 1).is_archived) :=
  ⟨rfl, Or.inl rfl,
    (C6_archive_roundtrip wU "T4" "T5" 1 wDB1 (insertedRow wPay "T1" 1)
      rfl (Or.inl rfl)).1⟩

/-! ## Update diffing and audit -/

/-- C5: an update whose payload is identical to the stored state (nine
fields equal under string comparison, notes unchanged) has an empty diff;
an empty diff writes no history entry; a non-empty diff writes exactly one
UPDATED entry whose details are the semicolon-joined change lines. -/
theorem C5_update_audit (u : Session) (now : String) (c : Payload) (db : DB)
    (i : Nat) (old : Row) (hreq : requiredPresent c = true)
    (hid : c.id? = some i) (hold : findById db i = some old) :
    (payloadMatches old c → diffChanges old c = []) ∧
    (diffChanges old c = [] →
      (postContracts u now c db).2.history = db.history) ∧
    (diffChanges old c ≠ [] →
      (postContracts u now c db).2.history = db.history ++
        [histEntry i u now "UPDATED"
          (String.intercalate "; " (diffChanges old c))]) := by
  have hpost : postContracts u now c db =
      (.ok "Updated" i,
        if (diffChanges old c).length > 0 then
          logHistory
            { db with contracts := db.contracts.map fun r =>
                if r.id = i then updatedRow r c now else r }
            i u now "UPDATED" (String.intercalate "; " (diffChanges old c))
        else
          { db with contracts := db.contracts.map fun r =>
              if r.id = i then updatedRow r c now else r }) := by
    unfold postContracts
    simp only [hreq, hid, hold, Bool.not_true]
    rfl
  refine ⟨?_, ?_, ?_⟩
  · intro hm
    obtain ⟨h1, h2, h3, h4, h5, h6, h7, h8, h9, h10⟩ := hm
    unfold diffChanges fieldDiffLine notesDiffLine
    rw [if_neg (by rw [h1]; simp), if_neg (by rw [h2]; simp),
        if_neg (by rw [h3]; simp), if_neg (by rw [h4]; simp),
        if_neg (by rw [h5]; simp), if_neg (by rw [h6]; simp),
        if_neg (by rw [h7]; simp), if_neg (by rw [h8]; simp),
        if_neg (by rw [h9]; simp), if_neg (by rw [h10]; simp)]
    rfl
  · intro hempty
    rw [hpost]
    rw [hempty]
    rfl
  · intro hne
    rw [hpost]
    have : (diffChanges old c).length > 0 := List.length_pos.mpr hne
    rw [if_pos this]
    rfl

theorem C5_update_audit_witness :
    requiredPresent { wPay with id? := some 1 } = true ∧
    ({ wPay with id? := some 1 } : Payload).id? = some 1 ∧
    findById wDB1 1 = some (insertedRow wPay "T1" 1) ∧
    (payloadMatches (insertedRow wPay "T1" 1) { wPay with id? := some 1 } →
      diffChanges (insertedRow wPay "T1" 1) { wPay with id? := some 1 } = []) :=
  ⟨rfl, rfl, rfl,
    (C5_update_audit wU "T3" { wPay with id? := some 1 } wDB1 1
      (insertedRow wPay "T1" 1) rfl rfl rfl).1⟩

/-! ## Duplicate creation -/

/-- C4: when a contract with the payload's business key already exists, the
create branch answers with the conflict error and performs no write at all —
the state is unchanged, so a store holding exactly one row with that key and
exactly one CREATED entry for it still does afterwards. -/
theorem C4_create_duplicate (u : Session) (now : String) (c : Payload)
    (db : DB) (ex : Row) (hreq : requiredPresent c = true)
    (hid : c.id? = none)
    (hdup : findByBusinessKey db c.policyNo c.valstybinisNr = some ex)
    (hone : keyCount db c.policyNo c.valstybinisNr = 1)
    (hcr : createdCount db ex.id = 1) :
    (postContracts u now c db).1 =
      .conflict "Sutartis su tokiu poliso numeriu ir objektu jau egzistuoja." ∧
    (postContracts u now c db).2 = db ∧
    keyCount (postContracts u now c db).2 c.policyNo c.valstybinisNr = 1 ∧
    createdCount (postContracts u now c db).2 ex.id = 1 := by
  have hpost : postContracts u now c db =
      (.conflict "Sutartis su tokiu poliso numeriu ir objektu jau egzistuoja.",
        db) := by
    unfold postContracts
    simp only [hreq, hid, hdup, Bool.not_true]
    rfl
  rw [hpost]
  exact ⟨rfl, rfl, hone, hcr⟩

theorem C4_create_duplicate_witness :
    requiredPresent wPay = true ∧
    wPay.id? = none ∧
    findByBusinessKey wDB1 wPay.policyNo wPay.valstybinisNr =
      some (insertedRow wPay "T1" 1) ∧
    keyCount wDB1 wPay.policyNo wPay.valstybinisNr = 1 ∧
    createdCount wDB1 (insertedRow wPay "T1" 1).id = 1 ∧
    ((postContracts wU "T2" wPay wDB1).1 =
      .conflict "Sutartis su tokiu poliso numeriu ir objektu jau egzistuoja." ∧
     (postContracts wU "T2" wPay wDB1).2 = wDB1 ∧
     keyCount (postContracts wU "T2" wPay wDB1).2 wPay.policyNo
       wPay.valstybinisNr = 1 ∧
     createdCount (postContracts wU "T2" wPay wDB1).2
       (insertedRow wPay "T1" 1).id = 1) :=
  ⟨rfl, rfl, rfl, rfl, rfl,
    C4_create_duplicate wU "T2" wPay wDB1 (insertedRow wPay "T1" 1)
      rfl rfl rfl rfl rfl⟩

/-! ## Import: per-row isolation -/

/-- C7: import rows are processed independently — the success counter is
exactly the number of rows whose mapping succeeds, the failure counter
exactly the number of rows whose mapping throws (their messages collected in
order), rows without a resolvable policy number count in neither, and the
resulting database is the same as if only the succeeding rows had been
imported: failing rows do not abort or affect the rest of the batch. -/
theorem C7_import_isolation (db : DB) (items : List Item) (t : String) :
    (importBatch db items t).1.success = items.countP (okItem t) ∧
    (importBatch db items t).1.failed = items.countP (errItem t) ∧
    (importBatch db items t).1.errors = items.filterMap (errMsg t) ∧
    (importBatch db items t).2 =
      (importBatch db (items.filter (okItem t)) t).2 := by
  induction items generalizing db with
  | nil => exact ⟨rfl, rfl, rfl, rfl⟩
  | cons item rest ih =>
    cases h : mapItem item t with
    | none =>
      have hb : importBatch db (item :: rest) t = importBatch db rest t := by
        simp only [importBatch, h]
      have hok : okItem t item = false := by simp [okItem, h]
      have herr : errItem t item = false := by simp [errItem, h]
      have hmsg : errMsg t item = none := by simp [errMsg, h]
      rw [hb]
      refine ⟨?_, ?_, ?_, ?_⟩
      · rw [List.countP_cons, hok]; simpa using (ih db).1
      · rw [List.countP_cons, herr]; simpa using (ih db).2.1
      · rw [List.filterMap_cons, hmsg]; exact (ih db).2.2.1
      · rw [List.filter_cons, hok]; simpa using (ih db).2.2.2
    | some res =>
      cases res with
      | error m =>
        have hb : importBatch db (item :: rest) t =
            ({ (importBatch db rest t).1 with
                failed := (importBatch db rest t).1.failed + 1
                errors := m :: (importBatch db rest t).1.errors },
              (importBatch db rest t).2) := by
          simp only [importBatch, h]
        have hok : okItem t item = false := by simp [okItem, h]
        have herr : errItem t item = true := by simp [errItem, h]
        have hmsg : errMsg t item = some m := by simp [errMsg, h]
        rw [hb]
        refine ⟨?_, ?_, ?_, ?_⟩
        · rw [List.countP_cons, hok]; simpa using (ih db).1
        · rw [List.countP_cons, herr]; simpa using (ih db).2.1
        · rw [List.filterMap_cons, hmsg]
          exact congrArg (m :: ·) (ih db).2.2.1
        · rw [List.filter_cons, hok]; simpa using (ih db).2.2.2
      | ok c =>
        have hb : importBatch db (item :: rest) t =
            ({ (importBatch (upsertImport c db) rest t).1 with
                success := (importBatch (upsertImport c db) rest t).1.success + 1 },
              (importBatch (upsertImport c db) rest t).2) := by
          simp only [importBatch, h]
        have hok : okItem t item = true := by simp [okItem, h]
        have herr : errItem t item = false := by simp [errItem, h]
        have hmsg : errMsg t item = none := by simp [errMsg, h]
        rw [hb]
        refine ⟨?_, ?_, ?_, ?_⟩
        · rw [List.countP_cons, hok]
          simpa using (ih (upsertImport c db)).1
        · rw [List.countP_cons, herr]
          simpa using (ih (upsertImport c db)).2.1
        · rw [List.filterMap_cons, hmsg]
          exact (ih (upsertImport c db)).2.2.1
        · rw [List.filter_cons, hok]
          have hb2 : importBatch db (item :: rest.filter (okItem t)) t =
              ({ (importBatch (upsertImport c db) (rest.filter (okItem t)) t).1 with
                  success :=
                    (importBatch (upsertImport c db)
                      (rest.filter (okItem t)) t).1.success + 1 },
                (importBatch (upsertImport c db) (rest.filter (okItem t)) t).2) := by
            simp only [importBatch, h]
          simp only [if_true]
          rw [hb2]
          exact (ih (upsertImport c db)).2.2.2

/-! ## Import: reconciliation by business key -/

theorem importBatch_cons_skip (db : DB) (item : Item) (rest : List Item)
    (t : String) (h : mapItem item t = none) :
    importBatch db (item :: rest) t = importBatch db rest t := by
  simp only [importBatch, h]

theorem importBatch_cons_err (db : DB) (item : Item) (rest : List Item)
    (t : String) (m : String) (h : mapItem item t = some (.error m)) :
    importBatch db (item :: rest) t =
      ({ (importBatch db rest t).1 with
          failed := (importBatch db rest t).1.failed + 1
          errors := m :: (importBatch db rest t).1.errors },
        (importBatch db rest t).2) := by
  simp only [importBatch, h]

theorem importBatch_cons_ok (db : DB) (item : Item) (rest : List Item)
    (t : String) (c : ImportRec) (h : mapItem item t = some (.ok c)) :
    importBatch db (item :: rest) t =
      ({ (importBatch (upsertImport c db) rest t).1 with
          success := (importBatch (upsertImport c db) rest t).1.success + 1 },
        (importBatch (upsertImport c db) rest t).2) := by
  simp only [importBatch, h]

theorem findByBusinessKey_str_none (db : DB) (p v : String) :
    findByBusinessKey db (.str p) (.str v) = none ↔ ¬ hasKey db p v := by
  unfold findByBusinessKey hasKey
  rw [List.find?_eq_none]
  constructor
  · rintro h ⟨r, hr, h1, h2⟩
    exact h r hr (by simp [textAff, h1, h2])
  · rintro h r hr hpred
    simp only [textAff, Bool.and_eq_true, decide_eq_true_eq] at hpred
    exact h ⟨r, hr, hpred.1, hpred.2⟩

theorem findByBusinessKey_str_some (db : DB) (p v : String) (ex : Row)
    (h : findByBusinessKey db (.str p) (.str v) = some ex) :
    ex ∈ db.contracts ∧ ex.policyNo = .str p ∧ ex.valstybinisNr = .str v := by
  refine ⟨List.mem_of_find?_eq_some h, ?_⟩
  have hp := List.find?_some h
  simp only [textAff, Bool.and_eq_true, decide_eq_true_eq] at hp
  exact hp

theorem upsertImport_update (c : ImportRec) (db : DB) (ex : Row)
    (h : findByBusinessKey db (.str c.policyNo) (.str c.valstybinisNr) =
      some ex) :
    upsertImport c db =
      { db with contracts := db.contracts.map fun r =>
          if r.id = ex.id then importUpdatedRow c r else r } := by
  unfold upsertImport
  rw [h]

theorem upsertImport_insert (c : ImportRec) (db : DB)
    (h : findByBusinessKey db (.str c.policyNo) (.str c.valstybinisNr) =
      none) :
    upsertImport c db =
      { db with
        contracts := db.contracts ++ [importInsertedRow c db.nextId]
        nextId := db.nextId + 1 } := by
  unfold upsertImport
  rw [h]

/-- After reconciling one mapped row, its business key is present. -/
theorem upsert_hasKey_self (c : ImportRec) (db : DB) :
    hasKey (upsertImport c db) c.policyNo c.valstybinisNr := by
  cases hfk : findByBusinessKey db (.str c.policyNo) (.str c.valstybinisNr) with
  | none =>
    rw [upsertImport_insert c db hfk]
    exact ⟨importInsertedRow c db.nextId, by simp, rfl, rfl⟩
  | some ex =>
    obtain ⟨hmem, hp, _⟩ := findByBusinessKey_str_some _ _ _ _ hfk
    rw [upsertImport_update c db ex hfk]
    refine ⟨importUpdatedRow c ex,
      List.mem_map.mpr ⟨ex, hmem, by rw [if_pos rfl]⟩, ?_, rfl⟩
    show ex.policyNo = .str c.policyNo
    exact hp

/-- Reconciling a row never destroys an existing business key (contract ids
being distinct, the single updated row is exactly the key's owner, and its
key is rewritten to itself). -/
theorem upsert_hasKey_mono (c : ImportRec) (db : DB)
    (hnd : (db.contracts.map Row.id).Nodup) (p v : String)
    (hk : hasKey db p v) : hasKey (upsertImport c db) p v := by
  obtain ⟨r, hr, h1, h2⟩ := hk
  cases hfk : findByBusinessKey db (.str c.policyNo) (.str c.valstybinisNr) with
  | none =>
    rw [upsertImport_insert c db hfk]
    exact ⟨r, by simp [hr], h1, h2⟩
  | some ex =>
    obtain ⟨hmem, hp, hv⟩ := findByBusinessKey_str_some _ _ _ _ hfk
    rw [upsertImport_update c db ex hfk]
    by_cases hid : r.id = ex.id
    · have hre : r = ex := List.inj_on_of_nodup_map hnd hr hmem hid
      subst hre
      refine ⟨importUpdatedRow c r,
        List.mem_map.mpr ⟨r, hr, by rw [if_pos rfl]⟩, ?_, ?_⟩
      · show r.policyNo = .str p
        exact h1
      · show JsVal.str c.valstybinisNr = .str v
        rw [← hv, h2]
    · exact ⟨r, List.mem_map.mpr ⟨r, hr, by rw [if_neg hid]⟩, h1, h2⟩

theorem wf_upsert (c : ImportRec) (db : DB) (hwf : WFdb db) :
    WFdb (upsertImport c db) := by
  obtain ⟨hnd, hbound⟩ := hwf
  cases hfk : findByBusinessKey db (.str c.policyNo) (.str c.valstybinisNr) with
  | some ex =>
    rw [upsertImport_update c db ex hfk]
    constructor
    · show ((db.contracts.map _).map Row.id).Nodup
      rw [List.map_map]
      have : db.contracts.map
          (Row.id ∘ fun r => if r.id = ex.id then importUpdatedRow c r else r) =
          db.contracts.map Row.id := by
        apply List.map_congr_left
        intro r _
        by_cases h : r.id = ex.id
        · show Row.id (if r.id = ex.id then importUpdatedRow c r else r) = r.id
          rw [if_pos h]
          rfl
        · show Row.id (if r.id = ex.id then importUpdatedRow c r else r) = r.id
          rw [if_neg h]
      rw [this]
      exact hnd
    · intro r hr
      obtain ⟨s, hs, rfl⟩ := List.mem_map.mp hr
      show (if s.id = ex.id then importUpdatedRow c s else s).id < db.nextId
      by_cases h : s.id = ex.id
      · rw [if_pos h]
        exact hbound s hs
      · rw [if_neg h]
        exact hbound s hs
  | none =>
    rw [upsertImport_insert c db hfk]
    constructor
    · show ((db.contracts ++ [importInsertedRow c db.nextId]).map Row.id).Nodup
      rw [List.map_append]
      refine List.Nodup.append hnd (List.nodup_singleton _) ?_
      intro a ha hb
      obtain ⟨s, hs, rfl⟩ := List.mem_map.mp ha
      have hlt := hbound s hs
      have : s.id = db.nextId := by simpa using hb
      omega
    · intro r hr
      rcases List.mem_append.mp hr with h | h
      · exact Nat.lt_succ_of_lt (hbound r h)
      · have : r = importInsertedRow c db.nextId := by simpa using h
        subst this
        exact Nat.lt_succ_self _

/-- When a row's key is already present, reconciling it changes neither the
row count nor the id counter, and leaves every row's id, notes and archival
flag untouched (the update path). -/
theorem upsert_stats_of_hasKey (c : ImportRec) (db : DB)
    (hk : hasKey db c.policyNo c.valstybinisNr) :
    (upsertImport c db).contracts.length = db.contracts.length ∧
    (upsertImport c db).nextId = db.nextId ∧
    (upsertImport c db).contracts.map preservedFields =
      db.contracts.map preservedFields := by
  cases hfk : findByBusinessKey db (.str c.policyNo) (.str c.valstybinisNr) with
  | none => exact absurd hk ((findByBusinessKey_str_none db _ _).mp hfk)
  | some ex =>
    rw [upsertImport_update c db ex hfk]
    refine ⟨by simp, rfl, ?_⟩
    show ((db.contracts.map _).map preservedFields) = _
    rw [List.map_map]
    apply List.map_congr_left
    intro r _
    show preservedFields (if r.id = ex.id then importUpdatedRow c r else r) =
      preservedFields r
    by_cases h : r.id = ex.id
    · rw [if_pos h]
      rfl
    · rw [if_neg h]

theorem wf_importBatch (db : DB) (items : List Item) (t : String)
    (hwf : WFdb db) : WFdb (importBatch db items t).2 := by
  induction items generalizing db with
  | nil => exact hwf
  | cons item rest ih =>
    cases h : mapItem item t with
    | none =>
      rw [importBatch_cons_skip db item rest t h]
      exact ih db hwf
    | some res =>
      cases res with
      | error m =>
        rw [importBatch_cons_err db item rest t m h]
        exact ih db hwf
      | ok c =>
        rw [importBatch_cons_ok db item rest t c h]
        exact ih (upsertImport c db) (wf_upsert c db hwf)

theorem importBatch_hasKey_mono (items : List Item) (db : DB) (t : String)
    (p v : String) (hwf : WFdb db) (hk : hasKey db p v) :
    hasKey (importBatch db items t).2 p v := by
  induction items generalizing db with
  | nil => exact hk
  | cons item rest ih =>
    cases h : mapItem item t with
    | none =>
      rw [importBatch_cons_skip db item rest t h]
      exact ih db hwf hk
    | some res =>
      cases res with
      | error m =>
        rw [importBatch_cons_err db item rest t m h]
        exact ih db hwf hk
      | ok c =>
        rw [importBatch_cons_ok db item rest t c h]
        exact ih (upsertImport c db) (wf_upsert c db hwf)
          (upsert_hasKey_mono c db hwf.1 p v hk)

/-- After a batch, every row the batch successfully mapped has its key in
the store. -/
theorem importBatch_establishes (items : List Item) (db : DB) (t : String)
    (hwf : WFdb db) :
    ∀ it ∈ items, ∀ c, mapItem it t = some (.ok c) →
      hasKey (importBatch db items t).2 c.policyNo c.valstybinisNr := by
  induction items generalizing db with
  | nil =>
    intro it hit
    cases hit
  | cons item rest ih =>
    intro it hit c hc
    rcases List.mem_cons.mp hit with rfl | hmem
    · rw [importBatch_cons_ok db it rest t c hc]
      exact importBatch_hasKey_mono rest (upsertImport c db) t _ _
        (wf_upsert c db hwf) (upsert_hasKey_self c db)
    · cases h : mapItem item t with
      | none =>
        rw [importBatch_cons_skip db item rest t h]
        exact ih db hwf it hmem c hc
      | some res =>
        cases res with
        | error m =>
          rw [importBatch_cons_err db item rest t m h]
          exact ih db hwf it hmem c hc
        | ok c0 =>
          rw [importBatch_cons_ok db item rest t c0 h]
          exact ih (upsertImport c0 db) (wf_upsert c0 db hwf) it hmem c hc

/-- When every successfully-mapped row's key is already present, a batch
inserts nothing: row count, id counter, and every row's id/notes/archival
flag are unchanged. -/
theorem importBatch_no_insert (items : List Item) (db : DB) (t : String)
    (hwf : WFdb db)
    (hall : ∀ it ∈ items, ∀ c, mapItem it t = some (.ok c) →
      hasKey db c.policyNo c.valstybinisNr) :
    (importBatch db items t).2.contracts.length = db.contracts.length ∧
    (importBatch db items t).2.nextId = db.nextId ∧
    (importBatch db items t).2.contracts.map preservedFields =
      db.contracts.map preservedFields := by
  induction items generalizing db with
  | nil => exact ⟨rfl, rfl, rfl⟩
  | cons item rest ih =>
    cases h : mapItem item t with
    | none =>
      rw [importBatch_cons_skip db item rest t h]
      exact ih db hwf fun it hm c hc => hall it (List.mem_cons_of_mem _ hm) c hc
    | some res =>
      cases res with
      | error m =>
        rw [importBatch_cons_err db item rest t m h]
        exact ih db hwf fun it hm c hc => hall it (List.mem_cons_of_mem _ hm) c hc
      | ok c =>
        rw [importBatch_cons_ok db item rest t c h]
        have hkc : hasKey db c.policyNo c.valstybinisNr :=
          hall item (List.mem_cons_self _ _) c h
        obtain ⟨hl, hn, hp⟩ := upsert_stats_of_hasKey c db hkc
        have hrest := ih (upsertImport c db) (wf_upsert c db hwf)
          fun it hm c0 hc0 => upsert_hasKey_mono c db hwf.1 _ _
            (hall it (List.mem_cons_of_mem _ hm) c0 hc0)
        exact ⟨hrest.1.trans hl, hrest.2.1.trans hn, hrest.2.2.trans hp⟩

/-- C3: importing the same batch twice (from a well-formed store) leaves
the same number of contract rows as importing it once — the second run
matches every mapped row by its (policyNo, valstybinisNr) key and takes the
update path: no insert happens (the id counter is also unchanged) and every
row's id, notes and archival flag are left untouched. -/
theorem C3_import_idempotent (db : DB) (items : List Item) (t : String)
    (hwf : WFdb db) :
    ((importBatch (importBatch db items t).2 items t).2.contracts.length =
      (importBatch db items t).2.contracts.length) ∧
    ((importBatch (importBatch db items t).2 items t).2.nextId =
      (importBatch db items t).2.nextId) ∧
    ((importBatch (importBatch db items t).2 items t).2.contracts.map
        preservedFields =
      (importBatch db items t).2.contracts.map preservedFields) :=
  importBatch_no_insert items (importBatch db items t).2 t
    (wf_importBatch db items t hwf)
    (fun it hm c hc => importBatch_establishes items db t hwf it hm c hc)

theorem C3_import_idempotent_witness :
    WFdb wDB0 ∧
    (((importBatch (importBatch wDB0 [wItem] "2024-01-01").2 [wItem]
        "2024-01-01").2.contracts.length =
      (importBatch wDB0 [wItem] "2024-01-01").2.contracts.length) ∧
     ((importBatch (importBatch wDB0 [wItem] "2024-01-01").2 [wItem]
        "2024-01-01").2.nextId =
      (importBatch wDB0 [wItem] "2024-01-01").2.nextId) ∧
     ((importBatch (importBatch wDB0 [wItem] "2024-01-01").2 [wItem]
        "2024-01-01").2.contracts.map preservedFields =
      (importBatch wDB0 [wItem] "2024-01-01").2.contracts.map
        preservedFields)) :=
  ⟨by decide, C3_import_idempotent wDB0 [wItem] "2024-01-01" (by decide)⟩

end Finlitte
